import Mathlib

/-!
Verification development for the result-acquisition and source-qualification
pipeline of the agentic web search backend (src/backend/server.py).

The Python code is shallowly embedded: external collaborators (the Google
Custom Search API, the network fetch and HTML extraction libraries, and the
Claude LLM API) are modelled as oracle functions or as environment records
whose fields give the outcome of each outbound call, with an explicit error
case standing for a raised exception.  All Python string operations are
modelled at the level of character lists, matching Python semantics where
strings are sequences of code points.
-/

/-! ## Python string primitives -/

/-- Python slicing s[:n]: the first n characters of a string. -/
def pyTake (s : String) (n : Nat) : String := String.mk (s.data.take n)

/-- Characters treated as whitespace by the Python str.strip() method. -/
def pyIsSpace (c : Char) : Bool :=
  c = ' ' || c = '\t' || c = '\n' || c = '\r' || c = '\x0b' || c = '\x0c'

/-- Python str.strip(): remove leading and trailing whitespace. -/
def pyStrip (s : String) : String :=
  String.mk (((s.data.dropWhile pyIsSpace).reverse.dropWhile pyIsSpace).reverse)

/-- Split a character list on a separator character. -/
def splitCharsOn (sep : Char) : List Char → List (List Char)
  | [] => [[]]
  | c :: cs =>
    match splitCharsOn sep cs with
    | [] => if c = sep then [[], [c]] else [[c]]
    | h :: t => if c = sep then [] :: h :: t else (c :: h) :: t

/-- Python str.splitlines() as used on text whose line separator is LF. -/
def pySplitLines (s : String) : List String :=
  (splitCharsOn '\n' s.data).map String.mk

/-- Python sep.join(parts). -/
def pyJoin (sep : String) (parts : List String) : String :=
  String.mk (List.intercalate sep.data (parts.map String.data))

/-- Truthiness of an optional string field of a result dict: a missing key
and an empty string are both falsy in Python. -/
def truthy : Option String → Bool
  | none => false
  | some s => s != ""

/-- Value of an optional string field when truthy, and none otherwise. -/
def truthyVal : Option String → Option String
  | none => none
  | some s => if s = "" then none else some s

/-- Python expression (o or default) for an optional string o. -/
def pyOrStr (o : Option String) (dflt : String) : String :=
  match o with
  | none => dflt
  | some s => if s = "" then dflt else s

/-! ## Data model -/

/-- Result item returned by the Google Custom Search API; only the fields the
pipeline reads are modelled.  A field is none when the key is absent. -/
structure SearchItem where
  title : Option String
  link : Option String
deriving DecidableEq, Inhabited

/-- Source dict built by strong_sources and by the raw fallback in
agentic_search: title, link and extracted content. -/
structure QualifiedSource where
  title : String
  link : Option String
  content : String
deriving DecidableEq, Inhabited

/-- Slim projection of a qualified source returned to the client: the
structure has no content field at all. -/
structure SlimSource where
  title : String
  link : Option String
deriving DecidableEq, Inhabited

/-- Content part of a Claude response; ptype is none when the part has no
type attribute (getattr default). -/
structure ContentPart where
  ptype : Option String
  text : String
deriving DecidableEq, Inhabited

/-! ## Search helpers (server.py lines 68-118) -/

/-- AUTHORITATIVE_HINTS from server.py. -/
def AUTHORITATIVE_HINTS : List String :=
  ["site:wikipedia.org", "site:britannica.com", "site:new7wonders.com",
   "site:nationalgeographic.com", "site:unesco.org"]

/-- WHITELIST_DOMAINS from server.py. -/
def WHITELIST_DOMAINS : List String :=
  ["wikipedia.org", "britannica.com", "new7wonders.com",
   "nationalgeographic.com", "unesco.org"]

/-- Python substring test (needle in hay). -/
def strContains (needle hay : String) : Bool :=
  decide (needle.data <:+: hay.data)

/-- Test from strong_sources: any(d in link for d in WHITELIST_DOMAINS). -/
def is_whitelisted (link : String) : Bool :=
  WHITELIST_DOMAINS.any (fun d => strContains d link)

/-- Test from strong_sources: content and len(content) >= 800. -/
def long_enough (content : String) : Bool :=
  content != "" && decide (800 ≤ content.length)

/-- Query variant list built at the top of smart_search. -/
def query_variants (query : String) : List String :=
  [query, query ++ " official list", query ++ " locations"] ++
    AUTHORITATIVE_HINTS.map (fun hint => query ++ " " ++ hint)

/-- Inner loop of smart_search over one variant result list: skip items with
a falsy or already seen link, append the rest, and break as soon as the
candidate list reaches the budget. -/
def merge_variant (budget : Nat) (seen : List String) (items : List SearchItem) :
    List SearchItem → List String × List SearchItem
  | [] => (seen, items)
  | it :: its =>
    match truthyVal it.link with
    | none => merge_variant budget seen items its
    | some l =>
      if l ∈ seen then merge_variant budget seen items its
      else
        if budget ≤ items.length + 1 then (l :: seen, items ++ [it])
        else merge_variant budget (l :: seen) (items ++ [it]) its

/-- Outer loop of smart_search over the query variants: merge each variant
result list and stop issuing further variants once the budget is reached. -/
def merge_items (budget : Nat) (seen : List String) (items : List SearchItem) :
    List (List SearchItem) → List SearchItem
  | [] => items
  | results :: rest =>
    let p := merge_variant budget seen items results
    if budget ≤ p.2.length then p.2
    else merge_items budget p.1 p.2 rest

/-- Deduplicated candidate list built by smart_search before the light
title/link quality filter, with budget max(12, k*2).  The search oracle maps
a query string to the items the provider returns for it. -/
def smart_search_candidates (search : String → List SearchItem) (query : String)
    (k : Nat) : List SearchItem :=
  merge_items (max 12 (k * 2)) [] [] ((query_variants query).map search)

/-- Embedding of smart_search: merged deduplicated candidates, then the
light quality filter, then truncation to max(10, k). -/
def smart_search (search : String → List SearchItem) (query : String)
    (k : Nat := 8) : List SearchItem :=
  let good := (smart_search_candidates search query k).filter
    (fun it => truthy it.title && truthy it.link)
  good.take (max 10 k)

/-! ## Extraction (server.py lines 124-149) -/

/-- Outcomes of the outbound calls made by one fetch_text invocation.  An
error value models a raised exception, carrying its message. -/
structure FetchEnv where
  /-- Result of trafilatura.fetch_url(url); none models a falsy download. -/
  fetch_url : Except String (Option String)
  /-- Result of trafilatura.extract on the downloaded document; none models
  a None extraction result. -/
  extract : String → Except String (Option String)
  /-- Body text of SESSION.get(url, timeout=15) after raise_for_status; an
  error models a network failure, timeout or HTTP error status. -/
  resp_text : Except String String
  /-- Text produced by BeautifulSoup parsing, tag decomposition and
  get_text with LF separators, given the response body. -/
  soup_text : String → Except String String

/-- Default value of the max_chars parameter of fetch_text. -/
def FETCH_MAX_CHARS_DEFAULT : Nat := 30000

/-- Line normalisation of the fallback branch: one stripped non-empty line
per input line, joined with LF. -/
def soup_normalize (raw : String) : String :=
  pyJoin "\n" (((pySplitLines raw).map pyStrip).filter (fun l => l != ""))

/-- Fallback branch of fetch_text: requests plus BeautifulSoup cleanup, the
normalised text truncated to max_chars, or the empty string when falsy. -/
def fetch_text_fallback (env : FetchEnv) (max_chars : Nat) : Except String String :=
  match env.resp_text with
  | .error e => .error e
  | .ok respText =>
    match env.soup_text respText with
    | .error e => .error e
    | .ok raw =>
      if soup_normalize raw != "" then .ok (pyTake (soup_normalize raw) max_chars)
      else .ok ""

/-- Body of the try block of fetch_text: trafilatura first, BeautifulSoup
fallback; an error value models an exception escaping the try block. -/
def fetch_text_body (env : FetchEnv) (max_chars : Nat) : Except String String :=
  match env.fetch_url with
  | .error e => .error e
  | .ok none => fetch_text_fallback env max_chars
  | .ok (some downloaded) =>
    match env.extract downloaded with
    | .error e => .error e
    | .ok none => fetch_text_fallback env max_chars
    | .ok (some text) =>
      if pyStrip text != "" then .ok (pyTake (pyStrip text) max_chars)
      else fetch_text_fallback env max_chars

/-- Embedding of fetch_text: on any exception the except clause returns the
placeholder string instead of raising. -/
def fetch_text (env : FetchEnv) (url : String)
    (max_chars : Nat := FETCH_MAX_CHARS_DEFAULT) : String :=
  match fetch_text_body env max_chars with
  | .ok s => s
  | .error e => "[Fetch error for " ++ url ++ ": " ++ e ++ "]"

/-- Predicate recognising the fetch error placeholder for a given url. -/
def isFetchErrorPlaceholder (url s : String) : Prop :=
  ∃ e, s = "[Fetch error for " ++ url ++ ": " ++ e ++ "]"

/-! ## Source qualification (server.py lines 152-172) -/

/-- Loop of strong_sources with the accumulated source list.  The fetch
oracle maps a url (an optional string, since the raw fallback in
agentic_search can pass a missing link through) to extracted content.
Candidates with a falsy link are skipped by continue, which also skips the
early stop check; after a processed candidate the loop breaks as soon as k
sources are collected. -/
def strong_sources_go (fetch : Option String → String) (k : Nat)
    (acc : List QualifiedSource) : List SearchItem → List QualifiedSource
  | [] => acc
  | r :: rs =>
    match truthyVal r.link with
    | none => strong_sources_go fetch k acc rs
    | some link =>
      let title := pyOrStr r.title "Untitled"
      let content := fetch (some link)
      let acc2 :=
        if is_whitelisted link || long_enough content then
          acc ++ [⟨title, some link, content⟩]
        else acc
      if k ≤ acc2.length then acc2 else strong_sources_go fetch k acc2 rs

/-- Embedding of strong_sources. -/
def strong_sources (fetch : Option String → String) (results : List SearchItem)
    (k : Nat := 6) : List QualifiedSource :=
  strong_sources_go fetch k [] results

/-! ## Answer synthesis (server.py lines 178-219) -/

/-- Per-source excerpt cap used in summarize_with_claude. -/
def EXCERPT_CAP : Nat := 6000

/-- Title shown in a context block: s.get(title) or Untitled. -/
def blockTitle (s : QualifiedSource) : String :=
  if s.title = "" then "Untitled" else s.title

/-- Link shown in a context block; a Python f-string renders None as the
four characters None. -/
def blockLink (s : QualifiedSource) : String :=
  match s.link with
  | some l => l
  | none => "None"

/-- Excerpt shown in a context block: (s.get(content) or empty)[:6000]. -/
def blockExcerpt (s : QualifiedSource) : String :=
  pyTake s.content EXCERPT_CAP

/-- Raw f-string of one context block, before textwrap.dedent and strip,
exactly as it appears in the source with its 8-space indentation. -/
def rawBlock (i : Nat) (s : QualifiedSource) : String :=
  "\n        [Source " ++ toString i ++ "]\n        Title: " ++ blockTitle s ++
  "\n        URL: " ++ blockLink s ++ "\n        Excerpt:\n        " ++
  blockExcerpt s ++ "\n        "

/-- Characters counted as indentation by textwrap.dedent. -/
def isIndentChar (c : Char) : Bool := c = ' ' || c = '\t'

/-- Test for a line consisting solely of whitespace (dedent normalises such
lines to empty before computing the margin). -/
def wsOnlyLine (l : String) : Bool :=
  l != "" && l.data.all isIndentChar

/-- Longest common prefix of two character lists. -/
def commonPrefix2 : List Char → List Char → List Char
  | x :: xs, y :: ys => if x = y then x :: commonPrefix2 xs ys else []
  | _, _ => []

/-- Embedding of textwrap.dedent: normalise whitespace-only lines to empty,
compute the longest common leading whitespace of the remaining lines, and
remove it from every line that starts with it. -/
def pyDedent (s : String) : String :=
  let lines := (pySplitLines s).map (fun l => if wsOnlyLine l then "" else l)
  let indents := (lines.filter (fun l => l != "")).map
    (fun l => l.data.takeWhile isIndentChar)
  let margin : List Char :=
    match indents with
    | [] => []
    | i :: is => is.foldl commonPrefix2 i
  pyJoin "\n" (lines.map (fun l =>
    if margin.isPrefixOf l.data then String.mk (l.data.drop margin.length) else l))

/-- Context block for 1-based source number i: dedented and stripped. -/
def mkBlock (i : Nat) (s : QualifiedSource) : String :=
  pyStrip (pyDedent (rawBlock i s))

/-- Context block list built by summarize_with_claude: one block per source,
enumerated from 1 in source order. -/
def context_blocks (sources : List QualifiedSource) : List String :=
  (List.enumFrom 1 sources).map (fun p => mkBlock p.1 p.2)

/-- System prompt sent to the model (verbatim from the source, including its
mojibake bytes). -/
def system_prompt : String :=
  "You are a precise research assistant. Prefer answers grounded in the provided sources, " ++
  "with citations like [1], [2]. If the question concerns widely accepted general facts " ++
  "(e.g., capitals, well-known lists, definitions) and the provided sources are thin, you may " ++
  "answer succinctly using general knowledge, but still try to ground with at least one reputable " ++
  "source from those provided. If essential details truly arenâ€™t in the sources and not reliable " ++
  "as general knowledge, say what is missing and suggest the single best next source to check."

/-- Embedding of summarize_with_claude.  The llm oracle maps the system and
user prompts to the content part list of the response, with an error value
modelling a raised anthropic.APIStatusError; only text parts are joined. -/
def summarize_with_claude (llm : String → String → Except String (List ContentPart))
    (sources : List QualifiedSource) (user_query : String) : Except String String :=
  let context := pyJoin "\n\n" (context_blocks sources)
  let user_prompt := "user_query: " ++ user_query ++ "\n\nSources:\n" ++ context
  match llm system_prompt user_prompt with
  | .error e => .error e
  | .ok content =>
    .ok (pyStrip (pyJoin ""
      ((content.filter (fun p => p.ptype.getD "" == "text")).map (fun p => p.text))))

/-! ## Orchestrator and endpoint (server.py lines 222-278) -/

/-- Oracles for all outbound calls of one request. -/
structure Env where
  /-- Items returned by google_search_once for a given query string. -/
  search : String → List SearchItem
  /-- Content returned by fetch_text for a given url argument. -/
  fetch : Option String → String
  /-- Claude response given system and user prompts. -/
  llm : String → String → Except String (List ContentPart)

/-- Exceptions that can escape agentic_search. -/
inductive AErr where
  /-- A fastapi HTTPException raised with a status code and detail. -/
  | httpExc (status : Nat) (detail : String)
  /-- An anthropic.APIStatusError propagating from the Claude call. -/
  | apiStatus (msg : String)
deriving DecidableEq

/-- Source list used by agentic_search once candidates exist: the strong
sources, or the raw top-k fallback when none qualify. -/
def agentic_sources (env : Env) (results : List SearchItem) (k : Nat) :
    List QualifiedSource :=
  let sources := strong_sources env.fetch results k
  if sources.isEmpty then
    (results.take k).map (fun r => ⟨r.title.getD "Untitled", r.link, env.fetch r.link⟩)
  else sources

/-- Embedding of agentic_search: search with inflated budget, qualify with
raw fallback, then summarize and project slim sources. -/
def agentic_search (env : Env) (query : String) (k : Nat := 6) :
    Except AErr (String × List SlimSource) :=
  let results := smart_search env.search query (max 10 (k * 2))
  if results.isEmpty then
    .error (.httpExc 400 "No search results. Check Google CSE settings.")
  else
    let sources := agentic_sources env results k
    match summarize_with_claude env.llm sources query with
    | .ok answer => .ok (answer, sources.map (fun s => ⟨s.title, s.link⟩))
    | .error m => .error (.apiStatus m)

/-- Request body of POST /search. -/
structure SearchRequest where
  query : String
  k : Nat := 6
deriving DecidableEq

/-- Response body of POST /search. -/
structure SearchResponse where
  query : String
  answer : String
  sources : List SlimSource
deriving DecidableEq

/-- Error response of the endpoint: status code and detail. -/
structure HTTPErrorOut where
  status : Nat
  detail : String
deriving DecidableEq

/-- Python str() of a fastapi HTTPException: status code, colon, detail. -/
def str_of_httpexc (status : Nat) (detail : String) : String :=
  toString status ++ ": " ++ detail

/-- Embedding of the POST /search handler.  An HTTPException raised inside
agentic_search is an Exception and is not an anthropic.APIStatusError, so
the blanket except clause catches it and re-raises status 500 with detail
str(e); an APIStatusError is caught first and mapped to 502. -/
def search_endpoint (env : Env) (req : SearchRequest) :
    Except HTTPErrorOut SearchResponse :=
  match agentic_search env req.query req.k with
  | .ok (answer, slim) => .ok ⟨req.query, answer, slim⟩
  | .error (.apiStatus m) => .error ⟨502, "Claude error: " ++ m⟩
  | .error (.httpExc s d) => .error ⟨500, str_of_httpexc s d⟩

/-! ## Specification-side definition for the dedup refinement claim -/

/-- Modelled from the spec wording of the dedup invariant: walk the items in
order, keep an item when its link is truthy and not yet seen, and record the
link as seen; the first component is the final seen set, the second the kept
items in first-seen order. -/
def firstSeenDedup (seen : List String) : List SearchItem →
    List String × List SearchItem
  | [] => (seen, [])
  | it :: its =>
    match truthyVal it.link with
    | none => firstSeenDedup seen its
    | some l =>
      if l ∈ seen then firstSeenDedup seen its
      else ((firstSeenDedup (l :: seen) its).1,
            it :: (firstSeenDedup (l :: seen) its).2)

/-! ## Concrete instances used by witnesses and counterexamples -/

/-- Search item on a whitelisted domain. -/
def wikiItem : SearchItem := ⟨some "T", some "https://en.wikipedia.org/wiki/Giza"⟩

/-- Qualified source with short ordinary content. -/
def srcW : QualifiedSource := ⟨"T", some "https://x.example/a", "hello"⟩

/-- Environment whose search provider returns no items for any query. -/
def envNoResults : Env := ⟨fun _ => [], fun _ => "", fun _ _ => .ok []⟩

/-- Environment where every variant finds the whitelisted item, extraction
returns empty content, and the model answers with one text part. -/
def envOkSearch : Env :=
  ⟨fun _ => [wikiItem], fun _ => "", fun _ _ => .ok [⟨some "text", "ans"⟩]⟩

/-- Fetch environment where the primary download is falsy and the fallback
yields an empty page, so extraction returns the empty string. -/
def envEmptyFetch : FetchEnv := ⟨.ok none, fun _ => .ok none, .ok "", fun _ => .ok ""⟩

/-- Fetch environment whose very first outbound call raises. -/
def errFetchEnv : FetchEnv :=
  ⟨.error "connection refused", fun _ => .ok none, .ok "", fun _ => .ok ""⟩

/-- Error message of 800 characters, as can arise from a verbose network
exception. -/
def cexErrMsg : String := String.mk (List.replicate 800 'a')

/-- Link on no whitelisted domain. -/
def cexLink : String := "https://evil.example.com/page"

/-- Fetch environment whose download raises with the long message. -/
def cexFetchEnv : FetchEnv :=
  ⟨.error cexErrMsg, fun _ => .ok none, .ok "", fun _ => .ok ""⟩

/-- Resulting placeholder content, 800 characters of error message inside
the fetch error brackets. -/
def cexContent : String := "[Fetch error for " ++ cexLink ++ ": " ++ cexErrMsg ++ "]"

/-- Fetch oracle realised by fetch_text itself under cexFetchEnv. -/
def cexFetch : Option String → String := fun _ => fetch_text cexFetchEnv cexLink

/-- Candidate bearing the non-whitelisted link. -/
def cexItem : SearchItem := ⟨some "T", some cexLink⟩

/-! ## Lemmas about query expansion and dedup -/

/-- Inner merge loop, related to the specification dedup: it appends to the
accumulated items the longest budget-bounded prefix of the first-seen dedup
of the variant results, and when the budget is not reached it also leaves
the seen set as the dedup does. -/
theorem merge_variant_spec (budget : Nat) (its : List SearchItem) :
    ∀ (seen : List String) (items : List SearchItem), items.length < budget →
      (merge_variant budget seen items its).2
        = items ++ ((firstSeenDedup seen its).2.take (budget - items.length))
      ∧ ((merge_variant budget seen items its).2.length < budget →
          (merge_variant budget seen items its).1 = (firstSeenDedup seen its).1) := by
  induction its with
  | nil =>
    intro seen items h
    refine ⟨by simp [merge_variant, firstSeenDedup], fun _ => rfl⟩
  | cons it its ih =>
    intro seen items h
    cases h1 : truthyVal it.link with
    | none =>
      have hstep : merge_variant budget seen items (it :: its)
          = merge_variant budget seen items its := by
        simp [merge_variant, h1]
      have hfd : firstSeenDedup seen (it :: its) = firstSeenDedup seen its := by
        simp [firstSeenDedup, h1]
      rw [hstep, hfd]
      exact ih seen items h
    | some l =>
      by_cases hm : l ∈ seen
      · have hstep : merge_variant budget seen items (it :: its)
            = merge_variant budget seen items its := by
          simp [merge_variant, h1, hm]
        have hfd : firstSeenDedup seen (it :: its) = firstSeenDedup seen its := by
          simp [firstSeenDedup, h1, hm]
        rw [hstep, hfd]
        exact ih seen items h
      · have hfd : firstSeenDedup seen (it :: its)
            = ((firstSeenDedup (l :: seen) its).1,
               it :: (firstSeenDedup (l :: seen) its).2) := by
          simp [firstSeenDedup, h1, hm]
        by_cases hb : budget ≤ items.length + 1
        · have hstep : merge_variant budget seen items (it :: its)
              = (l :: seen, items ++ [it]) := by
            simp [merge_variant, h1, hm, hb]
          have hbe : budget - items.length = 1 := by omega
          rw [hstep, hfd]
          constructor
          · simp [hbe]
          · intro hlen
            exfalso
            simp [List.length_append] at hlen
            omega
        · have hstep : merge_variant budget seen items (it :: its)
              = merge_variant budget (l :: seen) (items ++ [it]) its := by
            simp [merge_variant, h1, hm, hb]
          have h2 : (items ++ [it]).length < budget := by
            simp [List.length_append]; omega
          have ihs := ih (l :: seen) (items ++ [it]) h2
          have hsucc : budget - items.length = (budget - (items.length + 1)) + 1 := by
            omega
          rw [hstep, hfd]
          constructor
          · rw [ihs.1]
            simp only [List.length_append, List.length_cons, List.length_nil,
              Nat.zero_add]
            rw [hsucc, List.take_succ_cons]
            simp [List.append_assoc]
          · intro hlen
            exact ihs.2 hlen

/-- Specification dedup distributes over list append, threading its seen
set. -/
theorem firstSeenDedup_append (l1 l2 : List SearchItem) :
    ∀ seen : List String,
      firstSeenDedup seen (l1 ++ l2)
        = ((firstSeenDedup (firstSeenDedup seen l1).1 l2).1,
           (firstSeenDedup seen l1).2
             ++ (firstSeenDedup (firstSeenDedup seen l1).1 l2).2) := by
  induction l1 with
  | nil => intro seen; simp [firstSeenDedup]
  | cons it its ih =>
    intro seen
    cases h1 : truthyVal it.link with
    | none => simp [firstSeenDedup, h1, ih]
    | some l =>
      by_cases hm : l ∈ seen
      · simp [firstSeenDedup, h1, hm, ih]
      · simp [firstSeenDedup, h1, hm, ih]

/-- Outer merge loop equals the budget-bounded prefix of the first-seen
dedup of the flattened variant results. -/
theorem merge_items_spec (budget : Nat) (L : List (List SearchItem)) :
    ∀ (seen : List String) (items : List SearchItem), items.length < budget →
      merge_items budget seen items L
        = items ++ ((firstSeenDedup seen L.flatten).2.take (budget - items.length)) := by
  induction L with
  | nil => intro seen items h; simp [merge_items, firstSeenDedup]
  | cons results rest ih =>
    intro seen items h
    have hv := merge_variant_spec budget results seen items h
    have hdecomp : (merge_variant budget seen items results).2.length
        = items.length
          + ((firstSeenDedup seen results).2.take (budget - items.length)).length := by
      rw [hv.1]; simp [List.length_append]
    have hdec2 : (merge_variant budget seen items results).2.length
        = items.length
          + min (budget - items.length) (firstSeenDedup seen results).2.length := by
      rw [hdecomp, List.length_take]
    simp only [merge_items, List.flatten_cons]
    rw [firstSeenDedup_append]
    by_cases hb : budget ≤ (merge_variant budget seen items results).2.length
    · simp only [if_pos hb]
      have hfd : budget - items.length ≤ (firstSeenDedup seen results).2.length := by
        by_contra hcon
        push_neg at hcon
        rw [Nat.min_eq_right (Nat.le_of_lt hcon)] at hdec2
        omega
      rw [hv.1, List.take_append_of_le_length hfd]
    · simp only [if_neg hb]
      push_neg at hb
      have hd1lt : (firstSeenDedup seen results).2.length < budget - items.length := by
        by_contra hcon
        push_neg at hcon
        rw [Nat.min_eq_left hcon] at hdec2
        omega
      have htake : (firstSeenDedup seen results).2.take (budget - items.length)
          = (firstSeenDedup seen results).2 :=
        List.take_of_length_le (by omega)
      have hseen := hv.2 hb
      rw [ih _ _ hb, hseen, hv.1, htake, List.take_append_eq_append_take, htake]
      simp only [List.append_assoc, List.length_append]
      congr 3
      omega

/-- Kept items of the specification dedup have pairwise distinct truthy
links, none of which is in the initial seen set, and every kept item has a
truthy link. -/
theorem firstSeenDedup_links (its : List SearchItem) :
    ∀ seen : List String,
      ((firstSeenDedup seen its).2.filterMap (fun it => truthyVal it.link)).Nodup
      ∧ (∀ x ∈ (firstSeenDedup seen its).2.filterMap (fun it => truthyVal it.link),
          x ∉ seen) := by
  induction its with
  | nil => intro seen; simp [firstSeenDedup]
  | cons it its ih =>
    intro seen
    cases h1 : truthyVal it.link with
    | none => simpa [firstSeenDedup, h1] using ih seen
    | some l =>
      by_cases hm : l ∈ seen
      · simpa [firstSeenDedup, h1, hm] using ih seen
      · have ihs := ih (l :: seen)
        have hfd : firstSeenDedup seen (it :: its)
            = ((firstSeenDedup (l :: seen) its).1,
               it :: (firstSeenDedup (l :: seen) its).2) := by
          simp [firstSeenDedup, h1, hm]
        rw [hfd]
        constructor
        · simp only [List.filterMap_cons, h1, List.nodup_cons]
          refine ⟨fun hmem => ?_, ihs.1⟩
          exact (ihs.2 l hmem) (List.mem_cons_self l seen)
        · intro x hx
          simp only [List.filterMap_cons, h1, List.mem_cons] at hx
          rcases hx with rfl | hx
          · exact hm
          · intro hxs
            exact (ihs.2 x hx) (List.mem_cons_of_mem _ hxs)


/-! ## Claims C4 and C5: query expansion budget and dedup -/

/-- C4: For every query and every k, the deduplicated candidate list built
by query expansion never exceeds max(12, k*2) items before the title/link
filter, and the list returned by smart_search never exceeds max(10, k)
items. -/
theorem c4_candidate_budget (search : String → List SearchItem) (query : String)
    (k : Nat) :
    (smart_search_candidates search query k).length ≤ max 12 (k * 2)
    ∧ (smart_search search query k).length ≤ max 10 k := by
  have hb : (0 : Nat) < max 12 (k * 2) :=
    lt_of_lt_of_le (by norm_num) (le_max_left _ _)
  have h := merge_items_spec (max 12 (k * 2)) ((query_variants query).map search)
    [] [] (by simpa using hb)
  constructor
  · unfold smart_search_candidates
    rw [h]
    simp only [List.nil_append, List.length_nil, Nat.sub_zero]
    rw [List.length_take]
    exact Nat.min_le_left _ _
  · unfold smart_search
    simp only []
    rw [List.length_take]
    exact Nat.min_le_left _ _

/-- C5: For every query and every k, the merged candidate list produced by
query expansion equals the budget-bounded prefix of the first-seen dedup of
the concatenated variant results (so each link appears at most once, the
kept item for a link is the first one carrying it, and insertion order is
first-seen order), and its truthy links are pairwise distinct. -/
theorem c5_dedup_first_seen (search : String → List SearchItem) (query : String)
    (k : Nat) :
    smart_search_candidates search query k
      = ((firstSeenDedup [] (((query_variants query).map search).flatten)).2).take
          (max 12 (k * 2))
    ∧ ((smart_search_candidates search query k).filterMap
        (fun it => truthyVal it.link)).Nodup := by
  have hb : (0 : Nat) < max 12 (k * 2) :=
    lt_of_lt_of_le (by norm_num) (le_max_left _ _)
  have h := merge_items_spec (max 12 (k * 2)) ((query_variants query).map search)
    [] [] (by simpa using hb)
  have heq : smart_search_candidates search query k
      = ((firstSeenDedup [] (((query_variants query).map search).flatten)).2).take
          (max 12 (k * 2)) := by
    unfold smart_search_candidates
    rw [h]
    simp
  refine ⟨heq, ?_⟩
  rw [heq]
  have hnd := (firstSeenDedup_links (((query_variants query).map search).flatten) []).1
  exact List.Nodup.sublist (List.Sublist.filterMap _ (List.take_sublist _ _)) hnd

/-! ## Claim C2: strong source policy -/

/-- Accumulator invariant of the strong_sources loop: any property holding
of every appended source and of the initial accumulator holds of the
result. -/
theorem strong_sources_go_prop (fetch : Option String → String) (k : Nat)
    (P : QualifiedSource → Prop)
    (hP : ∀ (r : SearchItem) (link : String), truthyVal r.link = some link →
        (is_whitelisted link || long_enough (fetch (some link))) = true →
        P ⟨pyOrStr r.title "Untitled", some link, fetch (some link)⟩) :
    ∀ (rs : List SearchItem) (acc : List QualifiedSource),
      (∀ s ∈ acc, P s) → ∀ s ∈ strong_sources_go fetch k acc rs, P s := by
  intro rs
  induction rs with
  | nil =>
    intro acc hacc s hs
    simp only [strong_sources_go] at hs
    exact hacc s hs
  | cons r rs ih =>
    intro acc hacc s hs
    cases h1 : truthyVal r.link with
    | none =>
      rw [show strong_sources_go fetch k acc (r :: rs)
            = strong_sources_go fetch k acc rs by simp [strong_sources_go, h1]] at hs
      exact ih acc hacc s hs
    | some link =>
      by_cases hq : (is_whitelisted link || long_enough (fetch (some link))) = true
      · have hacc2 : ∀ s ∈ acc ++ [(⟨pyOrStr r.title "Untitled", some link,
            fetch (some link)⟩ : QualifiedSource)], P s := by
          intro s hs2
          rcases List.mem_append.1 hs2 with hs2 | hs2
          · exact hacc s hs2
          · rcases List.mem_singleton.1 hs2 with rfl
            exact hP r link h1 hq
        by_cases hk : k ≤ acc.length + 1
        · rw [show strong_sources_go fetch k acc (r :: rs)
              = acc ++ [(⟨pyOrStr r.title "Untitled", some link,
                  fetch (some link)⟩ : QualifiedSource)] by
            simp [strong_sources_go, h1, hq, hk]] at hs
          exact hacc2 s hs
        · rw [show strong_sources_go fetch k acc (r :: rs)
              = strong_sources_go fetch k (acc ++ [(⟨pyOrStr r.title "Untitled",
                  some link, fetch (some link)⟩ : QualifiedSource)]) rs by
            simp [strong_sources_go, h1, hq, hk]] at hs
          exact ih _ hacc2 s hs
      · have hqf : (is_whitelisted link || long_enough (fetch (some link))) = false := by
          revert hq
          cases is_whitelisted link || long_enough (fetch (some link)) <;> simp
        by_cases hk : k ≤ acc.length
        · rw [show strong_sources_go fetch k acc (r :: rs) = acc by
            simp [strong_sources_go, h1, hqf, hk]] at hs
          exact hacc s hs
        · rw [show strong_sources_go fetch k acc (r :: rs)
              = strong_sources_go fetch k acc rs by
            simp [strong_sources_go, h1, hqf, hk]] at hs
          exact ih acc hacc s hs

/-- C2 (amended): every source selected by the qualifier on the
non-fallback path has a truthy link and satisfies: the link contains a
whitelisted domain substring, or the extracted content is non-empty with
length at least 800.  The original additional condition, that such content
is never an error placeholder, does not hold of the code; see the
counterexample. -/
theorem c2_strong_source_policy (fetch : Option String → String)
    (results : List SearchItem) (k : Nat) :
    ∀ s ∈ strong_sources fetch results k,
      ∃ l, s.link = some l
        ∧ (is_whitelisted l = true
            ∨ (s.content ≠ "" ∧ 800 ≤ s.content.length)) := by
  intro s hs
  refine strong_sources_go_prop fetch k
    (fun s => ∃ l, s.link = some l
      ∧ (is_whitelisted l = true ∨ (s.content ≠ "" ∧ 800 ≤ s.content.length)))
    ?_ results [] (by simp) s hs
  intro r link h1 hq
  refine ⟨link, rfl, ?_⟩
  rcases (by simpa using hq :
      is_whitelisted link = true ∨ long_enough (fetch (some link)) = true) with h | h
  · exact Or.inl h
  · refine Or.inr ?_
    simpa only [long_enough, Bool.and_eq_true, bne_iff_ne, ne_eq,
      decide_eq_true_eq] using h

set_option maxRecDepth 4000 in
/-- C2 witness: a whitelisted source selected from a concrete run satisfies
the amended policy. -/
theorem c2_policy_witness :
    ∃ l, (⟨"T", some "https://en.wikipedia.org/wiki/Giza", ""⟩ :
        QualifiedSource).link = some l
      ∧ (is_whitelisted l = true
          ∨ ((⟨"T", some "https://en.wikipedia.org/wiki/Giza", ""⟩ :
              QualifiedSource).content ≠ ""
            ∧ 800 ≤ (⟨"T", some "https://en.wikipedia.org/wiki/Giza", ""⟩ :
              QualifiedSource).content.length)) :=
  c2_strong_source_policy (fun _ => "") [wikiItem] 1
    ⟨"T", some "https://en.wikipedia.org/wiki/Giza", ""⟩ (by decide)

set_option maxRecDepth 100000 in
/-- C2 counterexample: with a non-whitelisted link whose fetch raises with
a verbose message, fetch_text yields an error placeholder of length at
least 800, the qualifier selects the source on the normal path, and the
claimed property (whitelisted, or long and not an error placeholder) fails
for it. -/
theorem c2_counterexample :
    (⟨"T", some cexLink, cexContent⟩ : QualifiedSource)
        ∈ strong_sources cexFetch [cexItem] 6
    ∧ cexFetch (some cexLink) = cexContent
    ∧ ¬ (is_whitelisted cexLink = true
          ∨ (cexContent ≠ "" ∧ 800 ≤ cexContent.length
              ∧ ¬ isFetchErrorPlaceholder cexLink cexContent)) := by
  refine ⟨by decide, rfl, ?_⟩
  rintro (hw | ⟨-, -, hnp⟩)
  · exact absurd hw (by decide)
  · exact hnp ⟨cexErrMsg, rfl⟩

/-! ## Claim C6: zero-qualified fallback -/

/-- C6: when candidates exist but none qualifies, the fallback produces
exactly min(k, number of candidates) sources, the first candidates in
order, with content fetched for each. -/
theorem c6_fallback_count (env : Env) (results : List SearchItem) (k : Nat)
    (h1 : results ≠ []) (h2 : strong_sources env.fetch results k = []) :
    agentic_sources env results k
      = (results.take k).map
          (fun r => ⟨r.title.getD "Untitled", r.link, env.fetch r.link⟩)
    ∧ (agentic_sources env results k).length = min k results.length := by
  have hemp : (strong_sources env.fetch results k).isEmpty = true := by
    rw [h2]; rfl
  constructor
  · simp [agentic_sources, hemp]
  · simp [agentic_sources, hemp, List.length_map, List.length_take]

/-- C6 witness: one unqualified candidate with k = 2 yields exactly one
fallback source. -/
theorem c6_fallback_witness :
    agentic_sources envNoResults [⟨some "T", some "https://x.example/a"⟩] 2
      = ([(⟨some "T", some "https://x.example/a"⟩ : SearchItem)].take 2).map
          (fun r => ⟨r.title.getD "Untitled", r.link, envNoResults.fetch r.link⟩)
    ∧ (agentic_sources envNoResults [⟨some "T", some "https://x.example/a"⟩] 2).length
      = min 2 1 :=
  c6_fallback_count envNoResults [⟨some "T", some "https://x.example/a"⟩] 2
    (by decide) (by decide)

/-! ## Claims C7 and C8: extraction error handling and truncation -/

/-- Python slicing never yields more than n characters. -/
theorem pyTake_length_le (s : String) (n : Nat) : (pyTake s n).length ≤ n := by
  show (s.data.take n).length ≤ n
  rw [List.length_take]
  exact Nat.min_le_left _ _

/-- Successful results of the fallback branch are truncated to max_chars. -/
theorem fetch_text_fallback_ok_length (env : FetchEnv) (mc : Nat) (s : String)
    (h : fetch_text_fallback env mc = .ok s) : s.length ≤ mc := by
  cases henv : env.resp_text with
  | error e => simp [fetch_text_fallback, henv] at h
  | ok rt =>
    cases hsoup : env.soup_text rt with
    | error e => simp [fetch_text_fallback, henv, hsoup] at h
    | ok raw =>
      by_cases hc : soup_normalize raw != ""
      · simp only [fetch_text_fallback, henv, hsoup, if_pos hc, Except.ok.injEq] at h
        subst h
        exact pyTake_length_le _ _
      · simp only [fetch_text_fallback, henv, hsoup, if_neg hc, Except.ok.injEq] at h
        subst h
        exact Nat.zero_le mc

/-- Successful results of the whole try block are truncated to max_chars. -/
theorem fetch_text_body_ok_length (env : FetchEnv) (mc : Nat) (s : String)
    (h : fetch_text_body env mc = .ok s) : s.length ≤ mc := by
  cases hf : env.fetch_url with
  | error e => simp [fetch_text_body, hf] at h
  | ok od =>
    cases od with
    | none =>
      simp only [fetch_text_body, hf] at h
      exact fetch_text_fallback_ok_length env mc s h
    | some d =>
      cases hx : env.extract d with
      | error e => simp [fetch_text_body, hf, hx] at h
      | ok ot =>
        cases ot with
        | none =>
          simp only [fetch_text_body, hf, hx] at h
          exact fetch_text_fallback_ok_length env mc s h
        | some text =>
          by_cases hc : pyStrip text != ""
          · simp only [fetch_text_body, hf, hx, if_pos hc, Except.ok.injEq] at h
            subst h
            exact pyTake_length_le _ _
          · simp only [fetch_text_body, hf, hx, if_neg hc] at h
            exact fetch_text_fallback_ok_length env mc s h

/-- C7: extraction is total.  For every environment the result is either the
successful try-block value or the fetch error placeholder; in particular a
raised download, extraction or response exception always surfaces as the
placeholder string, never as an exception. -/
theorem c7_fetch_never_raises (env : FetchEnv) (url : String) (mc : Nat) :
    ((∃ s, fetch_text_body env mc = .ok s ∧ fetch_text env url mc = s)
      ∨ (∃ e, fetch_text_body env mc = .error e
          ∧ fetch_text env url mc = "[Fetch error for " ++ url ++ ": " ++ e ++ "]"))
    ∧ (∀ e, env.fetch_url = .error e →
        fetch_text env url mc = "[Fetch error for " ++ url ++ ": " ++ e ++ "]")
    ∧ (∀ e d, env.fetch_url = .ok (some d) → env.extract d = .error e →
        fetch_text env url mc = "[Fetch error for " ++ url ++ ": " ++ e ++ "]")
    ∧ (∀ e, env.fetch_url = .ok none → env.resp_text = .error e →
        fetch_text env url mc = "[Fetch error for " ++ url ++ ": " ++ e ++ "]") := by
  refine ⟨?_, ?_, ?_, ?_⟩
  · cases hb : fetch_text_body env mc with
    | ok s => exact Or.inl ⟨s, rfl, by unfold fetch_text; rw [hb]⟩
    | error e => exact Or.inr ⟨e, rfl, by unfold fetch_text; rw [hb]⟩
  · intro e he
    simp [fetch_text, fetch_text_body, he]
  · intro e d hf hx
    simp [fetch_text, fetch_text_body, hf, hx]
  · intro e hf hr
    simp [fetch_text, fetch_text_body, fetch_text_fallback, hf, hr]

/-- C7 witness: a connection failure on the first outbound call yields the
placeholder. -/
theorem c7_witness :
    fetch_text errFetchEnv "https://u.example" 9
      = "[Fetch error for " ++ "https://u.example" ++ ": "
          ++ "connection refused" ++ "]" :=
  (c7_fetch_never_raises errFetchEnv "https://u.example" 9).2.1
    "connection refused" rfl

/-- C8 (amended): whenever the try block of fetch_text succeeds, the
returned string is truncated to max_chars; only the error placeholder
escapes the truncation. -/
theorem c8_success_truncated (env : FetchEnv) (url : String) (mc : Nat)
    (s : String) (h : fetch_text_body env mc = .ok s) :
    fetch_text env url mc = s ∧ s.length ≤ mc := by
  constructor
  · unfold fetch_text
    rw [h]
  · exact fetch_text_body_ok_length env mc s h

/-- C8 witness: an empty page yields the empty string, within the limit. -/
theorem c8_truncation_witness :
    fetch_text envEmptyFetch "https://example.com" 7 = ""
    ∧ ("" : String).length ≤ 7 :=
  c8_success_truncated envEmptyFetch "https://example.com" 7 "" rfl

/-- C8 counterexample: with max_chars 10 a failing fetch returns the full
placeholder, whose length exceeds 10, so the claim that every returned
string has length at most max_chars is false. -/
theorem c8_counterexample :
    fetch_text errFetchEnv "https://example.com/resource" 10
      = "[Fetch error for https://example.com/resource: connection refused]"
    ∧ 10 < (fetch_text errFetchEnv "https://example.com/resource" 10).length := by
  refine ⟨by decide, by decide⟩

/-! ## Claim C10: whitelisted sources with empty content -/

/-- C10: a candidate whose truthy link is whitelisted is selected by the
qualifier even when its extracted content is the empty string, and a fetch
environment exists in which fetch_text returns the empty string for every
url, so an empty-content source can enter the prompt context on the
normal, non-fallback path. -/
theorem c10_whitelisted_empty_content (fetch : Option String → String)
    (r : SearchItem) (l : String) (k : Nat) (h1 : truthyVal r.link = some l)
    (h2 : is_whitelisted l = true) (h3 : fetch (some l) = "") :
    strong_sources fetch [r] k = [⟨pyOrStr r.title "Untitled", some l, ""⟩]
    ∧ (∃ env : FetchEnv, ∀ url mc, fetch_text env url mc = "") := by
  constructor
  · unfold strong_sources
    by_cases hk : k ≤ 1
    · simp [strong_sources_go, h1, h2, h3, hk]
    · simp [strong_sources_go, h1, h2, h3, hk]
  · exact ⟨envEmptyFetch, fun url mc => rfl⟩

set_option maxRecDepth 4000 in
/-- C10 witness: the concrete wikipedia item with empty fetched content is
selected. -/
theorem c10_witness :
    strong_sources (fun _ => "") [wikiItem] 6
      = [⟨pyOrStr wikiItem.title "Untitled",
          some "https://en.wikipedia.org/wiki/Giza", ""⟩]
    ∧ (∃ env : FetchEnv, ∀ url mc, fetch_text env url mc = "") :=
  c10_whitelisted_empty_content (fun _ => "") wikiItem
    "https://en.wikipedia.org/wiki/Giza" 6 (by decide) (by decide) rfl

/-! ## Claim C3: context block construction and caps -/

/-- String append acts as list append on the character data. -/
theorem strData_append (a b : String) : (a ++ b).data = a.data ++ b.data := rfl

/-- Infix containment is preserved by prepending. -/
theorem isInfix_append_left (pre : List Char) {l t : List Char}
    (h : t <:+: l) : t <:+: pre ++ l := by
  rcases h with ⟨s, u, rfl⟩
  exact ⟨pre ++ s, u, by simp [List.append_assoc]⟩

/-- A list is an infix of itself followed by anything. -/
theorem isInfix_self_append (t rest : List Char) : t <:+: t ++ rest :=
  ⟨[], rest, by simp⟩

/-- Context blocks enumerate the sources. -/
theorem context_blocks_length (l : List QualifiedSource) :
    (context_blocks l).length = l.length := by
  simp [context_blocks]

/-- Indexing an enumerated map. -/
theorem enumFrom_map_getElem (f : Nat × QualifiedSource → String) :
    ∀ (l : List QualifiedSource) (n i : Nat), i < l.length →
      ((List.enumFrom n l).map f)[i]! = f (n + i, l[i]!) := by
  intro l
  induction l with
  | nil => intro n i h; simp at h
  | cons a l ih =>
    intro n i h
    cases i with
    | zero =>
      simp [List.enumFrom]
    | succ j =>
      have hj : j < l.length := Nat.lt_of_succ_lt_succ (by simpa using h)
      simp only [List.enumFrom, List.map_cons]
      rw [List.getElem!_cons_succ, List.getElem!_cons_succ, ih (n + 1) j hj]
      have harith : n + 1 + j = n + (j + 1) := by omega
      rw [harith]

/-- Context block at position i is the block of the i-th source, numbered
from 1. -/
theorem context_blocks_getElem (l : List QualifiedSource) (i : Nat)
    (h : i < l.length) : (context_blocks l)[i]! = mkBlock (i + 1) l[i]! := by
  unfold context_blocks
  rw [enumFrom_map_getElem _ l 1 i h]
  have : 1 + i = i + 1 := by omega
  rw [this]

/-- C3 (amended): the synthesizer builds one context block per source; the
block of the i-th source is numbered i+1 and its raw template contains the
title (defaulting to Untitled), the link, and the content excerpt truncated
to the 6000-character cap; this cap is smaller than the default max-chars
limit of the extractor (30000), acting as a second, tighter truncation
layer. -/
theorem c3_context_blocks (sources : List QualifiedSource) :
    (context_blocks sources).length = sources.length
    ∧ (∀ i, i < sources.length →
        (context_blocks sources)[i]! = mkBlock (i + 1) sources[i]!)
    ∧ (∀ (i : Nat) (s : QualifiedSource),
        blockExcerpt s = pyTake s.content EXCERPT_CAP
        ∧ (blockExcerpt s).length ≤ EXCERPT_CAP
        ∧ (blockTitle s).data <:+: (rawBlock i s).data
        ∧ (blockLink s).data <:+: (rawBlock i s).data
        ∧ (blockExcerpt s).data <:+: (rawBlock i s).data)
    ∧ EXCERPT_CAP < FETCH_MAX_CHARS_DEFAULT := by
  refine ⟨context_blocks_length sources, context_blocks_getElem sources, ?_, by decide⟩
  intro i s
  refine ⟨rfl, pyTake_length_le _ _, ?_, ?_, ?_⟩
  · unfold rawBlock
    simp only [strData_append, List.append_assoc]
    exact isInfix_append_left _ (isInfix_append_left _ (isInfix_append_left _
      (isInfix_self_append _ _)))
  · unfold rawBlock
    simp only [strData_append, List.append_assoc]
    exact isInfix_append_left _ (isInfix_append_left _ (isInfix_append_left _
      (isInfix_append_left _ (isInfix_append_left _ (isInfix_self_append _ _)))))
  · unfold rawBlock
    simp only [strData_append, List.append_assoc]
    exact isInfix_append_left _ (isInfix_append_left _ (isInfix_append_left _
      (isInfix_append_left _ (isInfix_append_left _ (isInfix_append_left _
        (isInfix_append_left _ (isInfix_self_append _ _)))))))

/-- C3 counterexample: the excerpt cap (6000) is not larger than the
default max-chars limit of the extractor (30000); the claimed size relation
between the two truncation layers is reversed. -/
theorem c3_cap_counterexample :
    EXCERPT_CAP = 6000 ∧ FETCH_MAX_CHARS_DEFAULT = 30000
    ∧ ¬ (FETCH_MAX_CHARS_DEFAULT < EXCERPT_CAP) := by decide

/-- C3 witness: the single-source block list instantiated concretely. -/
theorem c3_witness :
    (context_blocks [srcW]).length = 1
    ∧ (context_blocks [srcW])[0]! = mkBlock 1 srcW
    ∧ (blockExcerpt srcW).length ≤ EXCERPT_CAP := by
  have h := c3_context_blocks [srcW]
  exact ⟨h.1, h.2.1 0 (by decide), (h.2.2.1 1 srcW).2.1⟩

/-! ## Claim C9: slim list matches prompt context order -/

/-- C9: whenever agentic_search succeeds, the slim source list returned to
the client is exactly the title/link projection of the qualified source
list, in the same order in which that list is enumerated, 1-based, in the
prompt context given to the synthesizer; the projection has no content
field by construction of SlimSource. -/
theorem c9_slim_matches_context (env : Env) (query : String) (k : Nat)
    (ans : String) (slim : List SlimSource)
    (h : agentic_search env query k = .ok (ans, slim)) :
    ∃ sources : List QualifiedSource,
      summarize_with_claude env.llm sources query = .ok ans
      ∧ slim = sources.map (fun s => ⟨s.title, s.link⟩)
      ∧ (context_blocks sources).length = sources.length
      ∧ (∀ i, i < sources.length →
          (context_blocks sources)[i]! = mkBlock (i + 1) sources[i]!) := by
  simp only [agentic_search] at h
  by_cases hr : (smart_search env.search query (max 10 (k * 2))).isEmpty
  · rw [if_pos hr] at h
    exact absurd h (by simp)
  · rw [if_neg hr] at h
    cases hs : summarize_with_claude env.llm
        (agentic_sources env (smart_search env.search query (max 10 (k * 2))) k)
        query with
    | error m =>
      rw [hs] at h
      exact absurd h (by simp)
    | ok a =>
      rw [hs] at h
      simp only [Except.ok.injEq, Prod.mk.injEq] at h
      obtain ⟨h1, h2⟩ := h
      refine ⟨agentic_sources env (smart_search env.search query (max 10 (k * 2))) k,
        ?_, h2.symm, context_blocks_length _, context_blocks_getElem _⟩
      rw [← h1]
      exact hs

set_option maxRecDepth 40000 in
/-- C9 witness: a concrete successful run with one whitelisted source. -/
theorem c9_witness :
    ∃ sources : List QualifiedSource,
      summarize_with_claude envOkSearch.llm sources "q" = .ok "ans"
      ∧ [(⟨"T", some "https://en.wikipedia.org/wiki/Giza"⟩ : SlimSource)]
          = sources.map (fun s => ⟨s.title, s.link⟩)
      ∧ (context_blocks sources).length = sources.length
      ∧ (∀ i, i < sources.length →
          (context_blocks sources)[i]! = mkBlock (i + 1) sources[i]!) :=
  c9_slim_matches_context envOkSearch "q" 1 "ans"
    [⟨"T", some "https://en.wikipedia.org/wiki/Giza"⟩] rfl

/-! ## Claim C1: the no-results condition at the endpoint -/

/-- Flattening a map to empty lists gives the empty list. -/
theorem map_const_nil_flatten {α β : Type} (l : List α) :
    (l.map (fun _ => ([] : List β))).flatten = [] := by
  induction l with
  | nil => rfl
  | cons a l ih => simpa using ih

/-- C1: when every query variant returns zero results, agentic_search
raises the HTTPException with status 400 and explanatory detail before any
use of the extractor or synthesizer oracles (the result holds for every
fetch and llm oracle), but the endpoint handler catches that exception in
its blanket except clause and re-raises it as HTTP 500 whose detail is the
str() of the original exception, so the client sees 500, not 400. -/
theorem c1_no_results_bug (env : Env) (req : SearchRequest)
    (h : ∀ q, env.search q = []) :
    agentic_search env req.query req.k
      = .error (.httpExc 400 "No search results. Check Google CSE settings.")
    ∧ search_endpoint env req
      = .error ⟨500, "400: No search results. Check Google CSE settings."⟩ := by
  have hb : (0 : Nat) < max 12 (req.k * 2) :=
    lt_of_lt_of_le (by norm_num) (le_max_left _ _)
  have hmap : (query_variants req.query).map env.search
      = (query_variants req.query).map (fun _ => ([] : List SearchItem)) :=
    List.map_congr_left (fun a _ => h a)
  have hsm : smart_search env.search req.query (max 10 (req.k * 2)) = [] := by
    unfold smart_search smart_search_candidates
    rw [hmap, merge_items_spec _ _ [] [] (by simpa using hb),
      map_const_nil_flatten]
    simp [firstSeenDedup]
  have hag : agentic_search env req.query req.k
      = .error (.httpExc 400 "No search results. Check Google CSE settings.") := by
    simp [agentic_search, hsm]
  refine ⟨hag, ?_⟩
  unfold search_endpoint
  rw [hag]
  have hstr : str_of_httpexc 400 "No search results. Check Google CSE settings."
      = "400: No search results. Check Google CSE settings." := by decide
  simp [hstr]

/-- C1 witness: the concrete empty-search environment. -/
theorem c1_witness :
    agentic_search envNoResults "any query" 6
      = .error (.httpExc 400 "No search results. Check Google CSE settings.")
    ∧ search_endpoint envNoResults ⟨"any query", 6⟩
      = .error ⟨500, "400: No search results. Check Google CSE settings."⟩ :=
  c1_no_results_bug envNoResults ⟨"any query", 6⟩ (fun _ => rfl)
